import Mathlib

set_option maxHeartbeats 1000000

/-!
Verification development for a batch media-transcoding utility
(three JavaScript variants: a space-aware runner, a validation-aware
runner, and a plain stream-copy runner `convert.js`).

The JavaScript sources are shallowly embedded: JS numbers that matter
only as integers are `Nat`/`Int`; values produced by `parseFloat` are
`Option ℚ` (with `none` playing the role of `NaN`); JS objects whose
fields may be absent become structures of `Option` fields; code that can
throw returns `Except JsError`.  Filesystem effects are modelled by an
explicit `World` state (an association list of existing files, the
manual-review ledger contents, and the log), and each external
`ffmpeg`/`ffprobe` invocation is resolved by an oracle `Env`.
-/

/-- Numeric value of a list of decimal digit characters. -/
def digitsVal (cs : List Char) : Nat :=
  cs.foldl (fun a c => 10 * a + (c.toNat - 48)) 0

/-- Model of JavaScript `parseInt(s, 10)`: optional sign, then the leading
run of decimal digits; `none` models `NaN` (no digits at all). -/
def jsParseInt (s : String) : Option Int :=
  match s.data with
  | '-' :: rest =>
    let ds := rest.takeWhile Char.isDigit
    if ds.isEmpty then none else some (-(digitsVal ds : Int))
  | cs =>
    let ds := cs.takeWhile Char.isDigit
    if ds.isEmpty then none else some (digitsVal ds : Int)

/-- The rational with the given natural numerator and denominator (kept in
core `mkRat` form so that concrete values reduce in the kernel). -/
def qOfNat (n : Nat) : ℚ := mkRat (Int.ofNat n) 1

/-- Model of JavaScript `parseFloat` on plain decimal notation (optional
sign, integer part, optional fractional part; exponents are not used by
the probe output this program parses).  `none` models `NaN`. -/
def jsParseFloat (s : String) : Option ℚ :=
  let (neg, cs) :=
    match s.data with
    | '-' :: r => (true, r)
    | '+' :: r => (false, r)
    | r => (false, r)
  let ip := cs.takeWhile Char.isDigit
  let rest := cs.drop ip.length
  let fp :=
    match rest with
    | '.' :: r2 => r2.takeWhile Char.isDigit
    | _ => []
  if ip.isEmpty && fp.isEmpty then none
  else
    let den : Nat := 10 ^ fp.length
    let v : ℚ := mkRat (Int.ofNat (digitsVal ip * den + digitsVal fp)) den
    some (if neg then -v else v)

/-- Substring test on character lists (JavaScript `String.prototype.includes`). -/
def containsSub : List Char → List Char → Bool
  | [], sub => sub.isEmpty
  | c :: t, sub => sub.isPrefixOf (c :: t) || containsSub t sub

/-- JavaScript `s.includes(sub)`. -/
def jsIncludes (s sub : String) : Bool :=
  containsSub s.data sub.data

/-- Windows path separators accepted by the `path` module. -/
def isPathSep (c : Char) : Bool := c == '\\' || c == '/'

/-- Characters of the basename of a path: everything after the last separator. -/
def baseNameChars (p : List Char) : List Char :=
  (p.reverse.takeWhile (fun c => !isPathSep c)).reverse

/-- Characters of `path.extname p`: the suffix of the basename starting at its
last dot, unless that dot is absent or is the basename's first character. -/
def extNameChars (p : List Char) : List Char :=
  let name := baseNameChars p
  let tl := name.reverse.takeWhile (fun c => !(c == '.'))
  if name.length - 1 ≤ tl.length then [] else '.' :: tl.reverse

/-- Model of Node `path.extname`. -/
def extname (p : String) : String :=
  String.mk (extNameChars p.data)

/-- JavaScript `String.prototype.toLowerCase` (ASCII, as used on extensions). -/
def toLowerStr (s : String) : String :=
  String.mk (s.data.map Char.toLower)

/-- Model of the two-argument Node `path.basename(p, e)`: the basename with
the suffix `e` removed when it matches and is not the entire basename. -/
def jsBasenameExtStrip (p e : String) : String :=
  let name := baseNameChars p.data
  let ecs := e.data
  if ecs.isSuffixOf name && !(name == ecs) then
    String.mk (name.take (name.length - ecs.length))
  else String.mk name

/-- Model of Node `path.join` for the simple two-segment Windows joins this
program performs. -/
def pathJoin (a b : String) : String :=
  a ++ "\\" ++ b

/-! Configuration constants shared by the part_001 variants. -/

def isDel : Bool := true

def BASE_DIR : String := "D:\\04_Temp\\直播"

def OUTPUT_DIR : String := BASE_DIR

def extensionsToConvert : List String := [".ts", ".flv"]

def SPACE_THRESHOLD : Nat := 5 * 1024 * 1024 * 1024

def MAX_BATCH_SIZE_BYTES : Nat := 70 * 1024 * 1024 * 1024

def MAX_DIFF_SIZE_BYTES : Nat := 2 * 1024 * 1024

/-- A thrown JavaScript exception. -/
inductive JsError where
  | typeError (msg : String)
  | error (msg : String)
deriving DecidableEq

deriving instance DecidableEq for Except

/-! Data model for the ffprobe JSON document. -/

/-- One element of the `streams` array of the probe output. -/
structure StreamInfo where
  codec_type : Option String
  codec_name : Option String
  codec_tag_string : Option String
deriving DecidableEq

/-- The `format` object of the probe output.  `nb_streams` may arrive as a
JSON number or a string, hence the sum. -/
structure FormatInfo where
  format_name : Option String
  nb_streams : Option (Sum Int String)
  duration : Option String
  size : Option String
deriving DecidableEq

/-- A parsed probe document; `runFfprobeJson` yields `none` on failure. -/
structure MediaInfo where
  format : Option FormatInfo
  streams : Option (List StreamInfo)
deriving DecidableEq

/-- Evaluation of the `nb_streams` expression
`typeof fmt.nb_streams === 'number' ? fmt.nb_streams : parseInt(fmt.nb_streams || '0', 10)`. -/
def jsNbStreams (fmt : FormatInfo) : Option Int :=
  match fmt.nb_streams with
  | some (.inl n) => some n
  | some (.inr s) => jsParseInt (if s == "" then "0" else s)
  | none => jsParseInt "0"

/-- Evaluation of `parseFloat(field || 0)` where `field` is an optional
string: an absent or empty (falsy) field short-circuits to the number 0. -/
def jsParseFloatOrZero (field : Option String) : Option ℚ :=
  match field with
  | some s => if s == "" then some 0 else jsParseFloat s
  | none => some 0

/-- JavaScript `x > bound` on a possibly-NaN number (`NaN > bound` is false). -/
def jsGtQ (x : Option ℚ) (bound : ℚ) : Bool :=
  match x with
  | some v => decide (bound < v)
  | none => false

/-- JavaScript `x >= bound` on a possibly-NaN number. -/
def jsGeInt (x : Option Int) (bound : Int) : Bool :=
  match x with
  | some v => decide (bound ≤ v)
  | none => false

/-- JavaScript `Math.abs` on a possibly-NaN number.  `Math.abs` takes a
single argument; in the source the second argument passed to it is ignored. -/
def jsAbsQ (x : Option ℚ) : Option ℚ :=
  x.map (fun v => if v < 0 then -v else v)

/-- Predicate on a stream for condition b): a video stream that is h264 with
a codec tag containing avc1. -/
def isAvc1Video (s : StreamInfo) : Bool :=
  (s.codec_type == some "video") && (s.codec_name == some "h264") &&
    (match s.codec_tag_string with
     | some t => jsIncludes t "avc1"
     | none => false)

/-- Predicate on a stream for condition c): an audio stream that is aac with
a codec tag containing mp4a. -/
def isMp4aAudio (s : StreamInfo) : Bool :=
  (s.codec_type == some "audio") && (s.codec_name == some "aac") &&
    (match s.codec_tag_string with
     | some t => jsIncludes t "mp4a"
     | none => false)

/-! Filesystem and process model shared by the three variants. -/

/-- Metadata of an existing file: size in bytes, modification and access
times (as millisecond timestamps, the value a Date coerces to). -/
structure FileData where
  size : Nat
  mtime : Int
  atime : Int
deriving DecidableEq

/-- A task produced by the space-aware collector: full path enriched with
size and timestamps. -/
structure FileTask where
  fullPath : String
  size : Nat
  mtime : Int
  atime : Int
deriving DecidableEq

/-- Observable state: the existing files (path to metadata), the contents of
the manual-review ledger (one string per `appendFileSync` call) and the log
(level and message per `writeLog` call). -/
structure World where
  files : List (String × FileData)
  ledger : List String
  logs : List (String × String)
deriving DecidableEq

/-- Ghost instrumentation recording the observable process events of a run:
`spawned p` when the transcoder is launched for source `p`, and
`committed p` when the success branch (validation passed) runs for `p`. -/
inductive Event where
  | spawned (p : String)
  | committed (p : String)
deriving DecidableEq

/-- Result of one worker invocation or of a whole batch: the final state,
the event trace, and the uncaught exception if one escaped. -/
structure StepResult where
  world : World
  trace : List Event
  err : Option JsError
deriving DecidableEq

/-- Oracle for the external processes: the transcoder exit code per source
path, the file the transcoder leaves at the output path (none if nothing
was written), the parsed probe document per output path, and a spawn
failure (isENOENT, message) if the transcoder could not be launched. -/
structure Env where
  exitCode : String → Int
  outFile : String → Option FileData
  probe : String → Option MediaInfo
  spawnError : String → Option (Bool × String)

/-- Remove every entry for path `p` (model of `fs.unlinkSync`). -/
def fsRemove (p : String) (fs : List (String × FileData)) : List (String × FileData) :=
  fs.filter (fun e => !(e.1 == p))

/-- Create or overwrite the file at `p` (effect of the transcoder writing
its output). -/
def fsWrite (p : String) (d : FileData) (fs : List (String × FileData)) :
    List (String × FileData) :=
  (p, d) :: fsRemove p fs

/-- Set the timestamps of the file at `p` (model of `fs.utimesSync`). -/
def fsSetTimes (p : String) (ta mt : Int) (fs : List (String × FileData)) :
    List (String × FileData) :=
  fs.map (fun e => if e.1 == p then (e.1, ⟨e.2.size, mt, ta⟩) else e)

/-- Model of `fs.existsSync`. -/
def existsSync (p : String) (w : World) : Bool :=
  (List.lookup p w.files).isSome

/-- Model of `writeLog(message, level)`: append to the log. -/
def writeLog (w : World) (lvl msg : String) : World :=
  ⟨w.files, w.ledger, w.logs ++ [(lvl, msg)]⟩

/-- Model of `fs.appendFileSync(MANUAL_REVIEW_FILE, line)`. -/
def appendLedger (w : World) (line : String) : World :=
  ⟨w.files, w.ledger ++ [line], w.logs⟩

/-- Model of `fs.unlinkSync(p)` at the world level. -/
def unlinkFile (p : String) (w : World) : World :=
  ⟨fsRemove p w.files, w.ledger, w.logs⟩

/-- Effect of the spawned transcoder on the filesystem: if the oracle says a
file was produced for this input, it appears at the output path. -/
def ffmpegEffect (env : Env) (input output : String) (w : World) : World :=
  match env.outFile input with
  | some d => ⟨fsWrite output d w.files, w.ledger, w.logs⟩
  | none => w

/-- The guarded `fs.utimesSync` call: on success the timestamps are copied
and an INFO line logged, on failure only a WARNING is logged. -/
def utimesStep (outputPath : String) (ta mt : Int) (w : World) : World :=
  if existsSync outputPath w then
    writeLog ⟨fsSetTimes outputPath ta mt w.files, w.ledger, w.logs⟩ "INFO"
      ("时间戳已复制到新文件: " ++ outputPath)
  else writeLog w "WARNING" "警告: 复制时间戳失败。"

/-- The expression `path.basename(inputPath, path.extname(inputPath))`
shared by the two part_001 workers. -/
def sourceBase (p : String) : String :=
  jsBasenameExtStrip p (extname p)

/-- The output path computed by both part_001 workers:
`path.join(OUTPUT_DIR, basename + '.mp4')`.  It depends on the source path
only through its basename. -/
def outputPathOf (p : String) : String :=
  pathJoin OUTPUT_DIR (sourceBase p ++ ".mp4")

/-- The `validation.reasons.join(', ')` expression: `reasons` is absent on
the early-return result, and calling `join` on `undefined` throws. -/
def joinComma : Option (List String) → Except JsError String
  | none => .error (.typeError "join of undefined")
  | some l => .ok (String.intercalate ", " l)

/-- The extension filter used by the collectors:
`extensionsToConvert.includes(path.extname(file).toLowerCase())`. -/
def extMatches (p : String) : Bool :=
  extensionsToConvert.contains (toLowerStr (extname p))

/-- A directory tree as seen by the collectors: a `readdirSync` listing in
filesystem order, each entry either a file (with its `statSync` data) or a
subdirectory. -/
inductive FSEntry where
  | file (name : String) (size : Nat) (mtime : Int) (atime : Int)
  | dir (name : String) (entries : List FSEntry)

namespace SpaceAware

/-- The `details` object built by the space-aware validator. -/
structure ValidationDetails where
  a_ok : Bool
  video_ok : Bool
  audio_ok : Bool
  nb_streams : Option Int
  duration : Option ℚ
  size : Option ℚ
deriving DecidableEq

/-- The object returned by the space-aware validator.  The early return for
missing metadata populates only the singular `reason` field; every other
path populates `reasons` and `details`.  Absent fields are `none`. -/
structure ValidationResult where
  ok : Bool
  reason : Option String
  reasons : Option (List String)
  details : Option ValidationDetails
deriving DecidableEq

/-- Embedding of the space-aware `validateMp4ByFfprobe(ffinfo, originSize)`.
`fmt.format_name.includes('mp4')` is unguarded in this variant, so an
absent `format_name` raises a `TypeError`.  The size predicate embeds the
source expression `Math.abs(size, originSize) > MAX_DIFF_SIZE_BYTES`
literally: `Math.abs` ignores its second argument. -/
def validateMp4ByFfprobe (ffinfo : Option MediaInfo) (originSize : Nat) :
    Except JsError ValidationResult :=
  match ffinfo with
  | none => .ok ⟨false, some "missing format or streams", none, none⟩
  | some info =>
    match info.format, info.streams with
    | none, _ => .ok ⟨false, some "missing format or streams", none, none⟩
    | some _, none => .ok ⟨false, some "missing format or streams", none, none⟩
    | some fmt, some streams =>
      match fmt.format_name with
      | none => .error (.typeError "includes of undefined")
      | some fname =>
        let a_ok := jsIncludes fname "mp4"
        let video_ok := streams.any isAvc1Video
        let audio_ok := streams.any isMp4aAudio
        let nb_streams := jsNbStreams fmt
        let d_ok := jsGeInt nb_streams 2
        let duration := jsParseFloatOrZero fmt.duration
        let e_ok := jsGtQ duration 0
        let size := jsParseFloatOrZero fmt.size
        let f_ok := jsGtQ (jsAbsQ size) (qOfNat MAX_DIFF_SIZE_BYTES)
        let ok := a_ok && video_ok && audio_ok && d_ok && e_ok && f_ok
        let reasons :=
          (if !a_ok then ["container_not_mp4"] else []) ++
          (if !video_ok then ["video_stream_not_h264_avc1"] else []) ++
          (if !audio_ok then ["audio_stream_not_aac_mp4a"] else []) ++
          (if !d_ok then ["nb_streams_lt_2"] else []) ++
          (if !e_ok then ["duration_invalid"] else []) ++
          (if !f_ok then ["size_invalid"] else [])
        .ok ⟨ok, none, some reasons,
          some ⟨a_ok, video_ok, audio_ok, nb_streams, duration, size⟩⟩

/-- The mutable state of the space-aware collector: the accumulated file
list and the running total of accepted bytes. -/
structure CollectSt where
  fileList : List FileTask
  totalSize : Nat
deriving DecidableEq

/-- Embedding of the inner `walk` of the space-aware `collectFiles`: iterate
the entries of a directory in order; recurse into subdirectories,
propagating the stop signal upward immediately; skip files with
non-matching extensions; the first time the running total would exceed
`MAX_BATCH_SIZE_BYTES`, return the stop signal `true`; otherwise accept the
file.  The boolean component is the stop signal. -/
def walkList (cur : String) (es : List FSEntry) (st : CollectSt) : CollectSt × Bool :=
  match es with
  | [] => (st, false)
  | .dir name sub :: rest =>
    match walkList (pathJoin cur name) sub st with
    | (st2, true) => (st2, true)
    | (st2, false) => walkList cur rest st2
  | .file name size mt ta :: rest =>
    if extMatches name then
      if st.totalSize + size > MAX_BATCH_SIZE_BYTES then (st, true)
      else walkList cur rest ⟨st.fileList ++ [⟨pathJoin cur name, size, mt, ta⟩], st.totalSize + size⟩
    else walkList cur rest st

/-- Stable insertion of a task into a list sorted ascending by `mtime`. -/
def insertByMtime (t : FileTask) : List FileTask → List FileTask
  | [] => [t]
  | u :: rest => if u.mtime < t.mtime then u :: insertByMtime t rest else t :: u :: rest

/-- Model of `fileList.sort((a, b) => a.mtime - b.mtime)`: a stable sort
ascending by modification time (JavaScript `Array.prototype.sort` is
required to be stable). -/
def sortByMtime : List FileTask → List FileTask
  | [] => []
  | t :: rest => insertByMtime t (sortByMtime rest)

/-- Embedding of the space-aware `collectFiles(dir)` over a directory tree:
run the walk from an empty state, then sort the accepted files by
modification time. -/
def collectFiles (dir : String) (entries : List FSEntry) : List FileTask :=
  sortByMtime (walkList dir entries ⟨[], 0⟩).1.fileList

/-- All matching files of a tree in traversal order, ignoring the size
bound: the candidate sequence the walk inspects. -/
def candidates (cur : String) (es : List FSEntry) : List FileTask :=
  match es with
  | [] => []
  | .dir name sub :: rest => candidates (pathJoin cur name) sub ++ candidates cur rest
  | .file name size mt ta :: rest =>
    if extMatches name then ⟨pathJoin cur name, size, mt, ta⟩ :: candidates cur rest
    else candidates cur rest

/-- Total size of a task list. -/
def sumSizes (l : List FileTask) : Nat :=
  (l.map (fun t => t.size)).sum

/-- The global greedy cutoff described by the specification: accept
candidates in traversal order while the running total stays within the
bound, and stop the entire collection at the first candidate that would
exceed it (the boolean reports whether the cutoff was hit). -/
def greedyF (used : Nat) : List FileTask → List FileTask × Bool
  | [] => ([], false)
  | t :: rest =>
    if used + t.size > MAX_BATCH_SIZE_BYTES then ([], true)
    else
      let r := greedyF (used + t.size) rest
      (t :: r.1, r.2)

/-- The close handler of the space-aware worker, keyed by the transcoder
exit code: zero exit probes and validates the output, then either commits
(timestamps, source deletion) or quarantines (output deletion, ledger
entry); non-zero exit logs an ERROR and deletes any partial output. -/
def onClose (env : Env) (t : FileTask) (outputPath : String) (code : Int) (w : World) :
    StepResult :=
  if code == 0 then
    let w3 := writeLog w "INFO" ("ffmpeg: 转换完成 -> " ++ outputPath)
    match validateMp4ByFfprobe (env.probe outputPath) t.size with
    | .error e => ⟨w3, [], some e⟩
    | .ok validation =>
      if validation.ok then
        let w4 := writeLog w3 "INFO" ("验证通过: " ++ outputPath ++ " (可正常播放概率 99.9%)")
        let w5 := utimesStep outputPath t.atime t.mtime w4
        let w6 :=
          if isDel then writeLog (unlinkFile t.fullPath w5) "INFO" ("删除原文件: " ++ t.fullPath)
          else w5
        ⟨writeLog w6 "INFO" "\n", [Event.committed t.fullPath], none⟩
      else
        let w4 :=
          if existsSync outputPath w3 then
            writeLog (unlinkFile outputPath w3) "WARNING" ("删除未通过验证的输出文件: " ++ outputPath)
          else w3
        match joinComma validation.reasons with
        | .error e => ⟨w4, [], some e⟩
        | .ok joined =>
          let w5 := appendLedger w4 ("文件: " ++ t.fullPath ++ " 未通过自动验证。原因: " ++ joined)
          let w6 := writeLog w5 "WARNING" ("记录到人工审查清单: " ++ t.fullPath)
          ⟨writeLog w6 "INFO" "\n", [], none⟩
  else
    let w3 := writeLog w "ERROR" ("转换失败: " ++ t.fullPath ++ "。ffmpeg 返回代码: " ++ toString code)
    let w4 :=
      if existsSync outputPath w3 then
        writeLog (unlinkFile outputPath w3) "INFO" ("删除损坏的输出文件: " ++ outputPath)
      else w3
    ⟨writeLog w4 "INFO" "\n", [], none⟩

/-- Embedding of the space-aware `convertFlvToMp4`: skip (and, since
`isDel`, delete the source) when the destination already exists; otherwise
spawn the transcoder and run the close handler. -/
def convertFlvToMp4 (env : Env) (t : FileTask) (w : World) : StepResult :=
  let outputPath := outputPathOf t.fullPath
  if existsSync outputPath w then
    let w1 := writeLog w "WARNING" ("跳过: 目标文件已存在。" ++ outputPath)
    let w2 :=
      if isDel then writeLog (unlinkFile t.fullPath w1) "INFO" ("删除原文件: " ++ t.fullPath)
      else w1
    ⟨writeLog w2 "INFO" "\n", [], none⟩
  else
    let w1 := writeLog w "INFO" ("开始转换: " ++ t.fullPath ++ " -> " ++ outputPath)
    match env.spawnError t.fullPath with
    | some em =>
      let w2 := writeLog w1 "CRITICAL" ("ffmpeg 进程错误: " ++ em.2)
      ⟨writeLog w2 "INFO" "\n", [Event.spawned t.fullPath], none⟩
    | none =>
      let w2 := ffmpegEffect env t.fullPath outputPath w1
      let r := onClose env t outputPath (env.exitCode t.fullPath) w2
      ⟨r.world, Event.spawned t.fullPath :: r.trace, r.err⟩

/-- The sequential conversion loop of `main`: one file at a time; an
uncaught exception from a worker (an unhandled rejection of the awaited
promise) stops the batch. -/
def processTasks (env : Env) : List FileTask → World → StepResult
  | [], w => ⟨w, [], none⟩
  | t :: rest, w =>
    let r := convertFlvToMp4 env t w
    match r.err with
    | some e => ⟨r.world, r.trace, some e⟩
    | none =>
      let r2 := processTasks env rest r.world
      ⟨r2.world, r.trace ++ r2.trace, r2.err⟩

/-- Tasks for the files of a single flat directory listing: `collectFiles`
specialized to a directory without subdirectories (filter by extension,
greedy size cutoff in listing order — see `walkList_eq_greedy` — then sort
by modification time). -/
def taskOf (e : String × FileData) : FileTask :=
  ⟨e.1, e.2.size, e.2.mtime, e.2.atime⟩

/-- The matching entries of a flat listing, in order. -/
def matchingTasks (fs : List (String × FileData)) : List FileTask :=
  (fs.filter (fun e => extMatches e.1)).map taskOf

/-- The batch collected from a flat listing. -/
def collectFilesFlat (fs : List (String × FileData)) : List FileTask :=
  sortByMtime (greedyF 0 (matchingTasks fs)).1

/-- One run of the batch runner over a world whose target directory is the
flat listing `w.files`: collect, then convert sequentially. -/
def runBatch (env : Env) (w : World) : StepResult :=
  processTasks env (collectFilesFlat w.files) w

end SpaceAware

namespace ValidationAware

/-- The `details` object built by the validation-aware validator (no size field). -/
structure ValidationDetails where
  a_ok : Bool
  video_ok : Bool
  audio_ok : Bool
  nb_streams : Option Int
  duration : Option ℚ
deriving DecidableEq

/-- The object returned by the validation-aware validator; as in the other
variant, the early return populates only the singular `reason` field. -/
structure ValidationResult where
  ok : Bool
  reason : Option String
  reasons : Option (List String)
  details : Option ValidationDetails
deriving DecidableEq

/-- Embedding of the validation-aware `validateMp4ByFfprobe(ffinfo)`.  This
variant guards `format_name` with a `typeof` check and guards `nb_streams`
and `duration` with `Number.isNaN` checks, and has no size predicate. -/
def validateMp4ByFfprobe (ffinfo : Option MediaInfo) : ValidationResult :=
  match ffinfo with
  | none => ⟨false, some "missing_format_or_streams", none, none⟩
  | some info =>
    match info.format, info.streams with
    | none, _ => ⟨false, some "missing_format_or_streams", none, none⟩
    | some _, none => ⟨false, some "missing_format_or_streams", none, none⟩
    | some fmt, some streams =>
      let a_ok :=
        match fmt.format_name with
        | some fname => jsIncludes fname "mp4"
        | none => false
      let video_ok := streams.any isAvc1Video
      let audio_ok := streams.any isMp4aAudio
      let nb_streams := jsNbStreams fmt
      let d_ok := !nb_streams.isNone && jsGeInt nb_streams 2
      let duration := jsParseFloatOrZero fmt.duration
      let e_ok := !duration.isNone && jsGtQ duration 0
      let ok := a_ok && video_ok && audio_ok && d_ok && e_ok
      let reasons :=
        (if !a_ok then ["container_not_mp4"] else []) ++
        (if !video_ok then ["video_stream_not_h264_avc1"] else []) ++
        (if !audio_ok then ["audio_stream_not_aac_mp4a"] else []) ++
        (if !d_ok then ["nb_streams_lt_2"] else []) ++
        (if !e_ok then ["duration_invalid"] else [])
      ⟨ok, none, some reasons, some ⟨a_ok, video_ok, audio_ok, nb_streams, duration⟩⟩

/-- The close handler of the validation-aware worker.  Differences from the
space-aware one: the validator takes no original size, the timestamps come
from a `statSync` done before spawning, the ledger line ends with a
newline, and no blank separator lines are logged. -/
def onClose (env : Env) (inputPath outputPath : String) (times : Option FileData)
    (code : Int) (w : World) : StepResult :=
  if code == 0 then
    let w3 := writeLog w "INFO" ("ffmpeg: 转换完成 -> " ++ outputPath)
    let validation := validateMp4ByFfprobe (env.probe outputPath)
    if validation.ok then
      let w4 := writeLog w3 "INFO" ("验证通过: " ++ outputPath ++ " (可正常播放概率 99.9%)")
      let w5 :=
        match times with
        | some d => utimesStep outputPath d.atime d.mtime w4
        | none => w4
      let w6 :=
        if isDel then writeLog (unlinkFile inputPath w5) "INFO" ("删除原文件: " ++ inputPath)
        else w5
      ⟨w6, [Event.committed inputPath], none⟩
    else
      let w4 :=
        if existsSync outputPath w3 then
          writeLog (unlinkFile outputPath w3) "WARNING" ("删除未通过验证的输出文件: " ++ outputPath)
        else w3
      match joinComma validation.reasons with
      | .error e => ⟨w4, [], some e⟩
      | .ok joined =>
        let w5 := appendLedger w4 ("文件: " ++ inputPath ++ " 未通过自动验证。原因: " ++ joined ++ "\n")
        ⟨writeLog w5 "WARNING" ("记录到人工审查清单: " ++ inputPath), [], none⟩
  else
    let w3 := writeLog w "ERROR" ("转换失败: " ++ inputPath ++ "。ffmpeg 返回代码: " ++ toString code)
    let w4 :=
      if existsSync outputPath w3 then
        writeLog (unlinkFile outputPath w3) "INFO" ("删除损坏输出文件: " ++ outputPath)
      else w3
    ⟨w4, [], none⟩

/-- Embedding of the validation-aware `convertFlvToMp4(inputPath)`: skip
without touching the source when the destination exists; otherwise stat
the source for its timestamps, spawn and handle the close. -/
def convertFlvToMp4 (env : Env) (inputPath : String) (w : World) : StepResult :=
  let outputPath := outputPathOf inputPath
  if existsSync outputPath w then
    ⟨writeLog w "WARNING" ("跳过: 目标文件已存在。" ++ outputPath), [], none⟩
  else
    let times := List.lookup inputPath w.files
    let w1 :=
      match times with
      | none => writeLog w "WARNING" "警告: 无法读取原文件时间戳。"
      | some _ => w
    let w2 := writeLog w1 "INFO" ("开始转换: " ++ inputPath ++ " -> " ++ outputPath)
    match env.spawnError inputPath with
    | some em => ⟨writeLog w2 "CRITICAL" ("ffmpeg 进程错误: " ++ em.2), [Event.spawned inputPath], none⟩
    | none =>
      let w3 := ffmpegEffect env inputPath outputPath w2
      let r := onClose env inputPath outputPath times (env.exitCode inputPath) w3
      ⟨r.world, Event.spawned inputPath :: r.trace, r.err⟩

end ValidationAware

namespace ConvertJs

/-- The output path computed by `convert.js`:
`inputPath.substring(0, inputPath.lastIndexOf(path.extname(inputPath))) + '.mp4'`
(the extension is replaced in place, so the output sits next to the
source).  `lastIndexOf` of the empty extension is the string length. -/
def lastOccIdx (s pat : List Char) : Option Nat :=
  ((List.range (s.length + 1)).filter (fun i => pat.isPrefixOf (s.drop i))).getLast?

/-- The `outputBase + '.mp4'` computation of `convert.js`. -/
def convertJsOutputPath (input : String) : String :=
  let ext := extname input
  let idx := (lastOccIdx input.data ext.data).getD 0
  String.mk (input.data.take idx) ++ ".mp4"

/-- Embedding of `convertVideoStreamCopy(inputPath)` from `convert.js`.
The duration probe and the console progress bar are display-only and not
modelled.  On zero exit the timestamps are copied and an INFO line logged
(the source-deletion line is commented out in the source); on non-zero
exit only an ERROR is logged — no file is deleted and no ledger exists in
this variant. -/
def convertVideoStreamCopy (env : Env) (inputPath : String) (w : World) : StepResult :=
  let outputPath := convertJsOutputPath inputPath
  if existsSync outputPath w then
    ⟨writeLog w "WARNING" ("跳过: 目标文件已存在。" ++ outputPath), [], none⟩
  else
    let times := List.lookup inputPath w.files
    let w1 :=
      match times with
      | none => writeLog w "WARNING" "警告: 无法读取原文件时间戳。"
      | some _ => w
    let w2 := writeLog w1 "INFO" ("开始转换: " ++ inputPath ++ " -> " ++ outputPath)
    match env.spawnError inputPath with
    | some em =>
      if em.1 then
        ⟨writeLog w2 "CRITICAL" "【致命错误】找不到 FFmpeg 命令。", [Event.spawned inputPath], none⟩
      else
        ⟨writeLog w2 "ERROR" ("进程错误: " ++ inputPath ++ "。错误: " ++ em.2), [Event.spawned inputPath], none⟩
    | none =>
      let w3 := ffmpegEffect env inputPath outputPath w2
      let code := env.exitCode inputPath
      if code == 0 then
        let w4 :=
          match times with
          | some d => utimesStep outputPath d.atime d.mtime w3
          | none => w3
        ⟨writeLog w4 "INFO" ("成功转换: " ++ inputPath), [Event.spawned inputPath, Event.committed inputPath], none⟩
      else
        ⟨writeLog w3 "ERROR" ("转换失败: " ++ inputPath ++ "。错误代码: " ++ toString code), [Event.spawned inputPath], none⟩

end ConvertJs

/-! The disk-space guard of the space-aware variant. -/

/-- The outcome of the `spawnSync('fsutil', ...)` call: a launch error, or
the decoded standard output. -/
structure SpawnSyncResult where
  error : Option String
  stdout : String
deriving DecidableEq

/-- Character class of the regular expression `[\d,]+`. -/
def numChar (c : Char) : Bool := c.isDigit || c == ','

/-- First match of `/([\d,]+)/` in a string: the earliest maximal run of
digits and commas. -/
def firstNumRun : List Char → Option (List Char)
  | [] => none
  | c :: rest => if numChar c then some (c :: rest.takeWhile numChar) else firstNumRun rest

/-- Embedding of `getAvailableDiskSpace(directory)`.  On a non-Windows
platform the function throws before anything else.  On Windows: a spawn
error logs and returns 0; a matched number has its thousands separators
stripped and is parsed with `parseInt` (`none` models the `NaN` result
when the match contains only commas); no match falls through to the final
`return 0`. -/
def getAvailableDiskSpace (platform : String) (result : SpawnSyncResult) :
    Except JsError (Option Nat) :=
  if platform == "win32" then
    match result.error with
    | some _ => .ok (some 0)
    | none =>
      match firstNumRun result.stdout.data with
      | some run =>
        match jsParseInt (String.mk (run.filter (fun c => !(c == ',')))) with
        | some n => .ok (some n.toNat)
        | none => .ok none
      | none => .ok (some 0)
  else .error (.error "Unsupported platform")

/-- JavaScript `x < bound` on a possibly-NaN number (`NaN < bound` is false). -/
def jsLtNat : Option Nat → Nat → Bool
  | some n, t => decide (n < t)
  | none, _ => false

/-- The disk-space gate of `main`: query the free space of the output
volume and abort (returning `true`) when it is below `SPACE_THRESHOLD`.
An exception thrown by the query is not caught by `main` and propagates. -/
def mainSpaceGate (platform : String) (res : SpawnSyncResult) : Except JsError Bool :=
  match getAvailableDiskSpace platform res with
  | .error e => .error e
  | .ok availableSpace => .ok (jsLtNat availableSpace SPACE_THRESHOLD)

/-! Concrete probe documents, environments and worlds used to evaluate the
embedded code at specific inputs. -/

/-- A probe document satisfying all predicates of both validators (its
reported size, 5000000, also satisfies the size predicate as implemented). -/
def goodMediaInfo : MediaInfo :=
  ⟨some ⟨some "mov,mp4,m4a,3gp,3g2,mj2", some (.inl 2), some "300.5", some "5000000"⟩,
   some [⟨some "video", some "h264", some "avc1"⟩, ⟨some "audio", some "aac", some "mp4a"⟩]⟩

/-- A probe document identical to `goodMediaInfo` except that the reported
output size is 1000000 — equal to the original size used in the size-delta
theorem, so the intended size check (delta at most `MAX_DIFF_SIZE_BYTES`)
would pass. -/
def equalSizeMediaInfo : MediaInfo :=
  ⟨some ⟨some "mov,mp4,m4a,3gp,3g2,mj2", some (.inl 2), some "300.5", some "1000000"⟩,
   some [⟨some "video", some "h264", some "avc1"⟩, ⟨some "audio", some "aac", some "mp4a"⟩]⟩

/-- A probe document whose reported size, 5000000000, is wildly different
from any small original size, so the intended size check would fail. -/
def farSizeMediaInfo : MediaInfo :=
  ⟨some ⟨some "mov,mp4,m4a,3gp,3g2,mj2", some (.inl 2), some "300.5", some "5000000000"⟩,
   some [⟨some "video", some "h264", some "avc1"⟩, ⟨some "audio", some "aac", some "mp4a"⟩]⟩

/-- A probe document with no acceptable audio stream and a stream count of
one: validation fails with a populated `reasons` list. -/
def badAudioMediaInfo : MediaInfo :=
  ⟨some ⟨some "mov,mp4,m4a,3gp,3g2,mj2", some (.inl 1), some "300.5", some "5000000"⟩,
   some [⟨some "video", some "h264", some "avc1"⟩]⟩

def pA : String := "D:\\04_Temp\\直播\\快手直播\\a.flv"
def pB : String := "D:\\04_Temp\\直播\\快手直播\\b.flv"

def envNullProbe : Env :=
  ⟨fun _ => 0, fun _ => some ⟨3000000, 10, 10⟩, fun _ => none, fun _ => none⟩

def wTwoSources : World :=
  ⟨[(pA, ⟨3000000, 1, 1⟩), (pB, ⟨3000000, 2, 2⟩)], [], []⟩

def envGood : Env :=
  ⟨fun _ => 0, fun _ => some ⟨5000000, 10, 10⟩, fun _ => some goodMediaInfo, fun _ => none⟩

/-- Environment in which the transcoder exits with code 1 after writing a
partial output file. -/
def envExitOne : Env :=
  ⟨fun _ => 1, fun _ => some ⟨1000, 0, 0⟩, fun _ => none, fun _ => none⟩

/-- A single source file for the `convert.js` non-zero-exit scenario. -/
def pV : String := "D:\\cap\\v.flv"

/-- World holding only that source file. -/
def wOneSource : World := ⟨[(pV, ⟨99, 1, 1⟩)], [], []⟩

/-- Environment with a clean transcoder exit but a failing probe
(`runFfprobeJson` returns null). -/
def envProbeNone8 : Env :=
  ⟨fun _ => 0, fun _ => some ⟨5000000, 10, 10⟩, fun _ => none, fun _ => none⟩

/-- Environment with a clean transcoder exit and a probe document that
fails validation with a populated reasons list. -/
def envBadAudio8 : Env :=
  ⟨fun _ => 0, fun _ => some ⟨5000000, 10, 10⟩, fun _ => some badAudioMediaInfo, fun _ => none⟩

/-- The task for the validation-failure scenarios. -/
def t8 : FileTask := ⟨"D:\\04_Temp\\直播\\快手直播\\c.flv", 5000000, 3, 4⟩

/-- World holding only that task's source file. -/
def w8 : World := ⟨[("D:\\04_Temp\\直播\\快手直播\\c.flv", ⟨5000000, 3, 4⟩)], [], []⟩

/-- Environment in which the transcoder exits with code 2 after writing a
partial output file, used by the non-zero-exit witness. -/
def envExit2 : Env :=
  ⟨fun _ => 2, fun _ => some ⟨500, 0, 0⟩, fun _ => none, fun _ => none⟩

/-- Task for the non-zero-exit witness. -/
def tC6 : FileTask := ⟨"D:\\cap\\w.flv", 7, 1, 1⟩

/-- A world with no files, empty ledger and empty log. -/
def wEmpty : World := ⟨[], [], []⟩

/-- Environment for the basename-collision witness: clean exits, good probe. -/
def envC10 : Env :=
  ⟨fun _ => 0, fun _ => some ⟨9, 9, 9⟩, fun _ => some goodMediaInfo, fun _ => none⟩

/-- The second of two tasks sharing the basename `clip` (distinct parents). -/
def tC10 : FileTask := ⟨"D:\\live\\b\\clip.flv", 9, 2, 2⟩

/-- World in which `clip.mp4` already sits in the output directory (written
from the first task) while the second task's source still exists. -/
def wC10 : World :=
  ⟨[("D:\\04_Temp\\直播\\clip.mp4", ⟨100, 1, 1⟩), ("D:\\live\\b\\clip.flv", ⟨9, 2, 2⟩)], [], []⟩

/-- A directory tree whose second candidate (a 70 GB file inside a
subdirectory) triggers the batch cutoff, leaving a tiny sibling file and a
later top-level file uncollected. -/
def cutoffTree : List FSEntry :=
  [.file "a.flv" 1073741824 1 1,
   .dir "sub" [.file "big.flv" MAX_BATCH_SIZE_BYTES 2 2, .file "tiny.flv" 5 3 3],
   .file "late.flv" 7 4 4]

/-! Theorems.  Each claim of the specification audit is settled by exactly
one theorem below (with a witness where the theorem carries hypotheses). -/

/-- C1: the claim states that the space-aware size predicate passes iff
`|outputSize - originalSize| <= MAX_DIFF_SIZE_BYTES`.  The code instead
evaluates `Math.abs(size, originSize) > MAX_DIFF_SIZE_BYTES`: the original
size is ignored and the sense is inverted.  At output size 1000000 with
original size 1000000 the intended delta is 0 (within bound) yet the
validator reports `size_invalid`; at output size 5000000000 with original
size 100 the intended delta is far beyond the bound yet the validator
passes. -/
theorem size_delta_predicate_inverted :
    SpaceAware.validateMp4ByFfprobe (some equalSizeMediaInfo) 1000000 =
      .ok ⟨false, none, some ["size_invalid"],
        some ⟨true, true, true, some 2, some (mkRat 601 2), some (mkRat 1000000 1)⟩⟩ ∧
    SpaceAware.validateMp4ByFfprobe (some farSizeMediaInfo) 100 =
      .ok ⟨true, none, some [],
        some ⟨true, true, true, some 2, some (mkRat 601 2), some (mkRat 5000000000 1)⟩⟩ ∧
    ((1000000 : Int) - 1000000).natAbs ≤ MAX_DIFF_SIZE_BYTES ∧
    ((5000000000 : Int) - 100).natAbs > MAX_DIFF_SIZE_BYTES := by
  decide

/-- C3 (counterexample): on a null probe result neither validator returns a
failure-reason set containing `missing_format_or_streams`: both populate
only the singular `reason` field (`reasons` is absent), and the space-aware
variant's string is `missing format or streams`, with spaces, not the
claimed code. -/
theorem missing_probe_reason_counterexample :
    SpaceAware.validateMp4ByFfprobe none 0 =
      .ok ⟨false, some "missing format or streams", none, none⟩ ∧
    ValidationAware.validateMp4ByFfprobe none =
      ⟨false, some "missing_format_or_streams", none, none⟩ := by
  decide

/-- C3 (amended): for every null probe result, or probe result lacking
`format` or `streams`, both validators return `ok = false` with no
`reasons` list; the singular `reason` field is
`missing_format_or_streams` in the validation-aware variant and
`missing format or streams` (with spaces) in the space-aware variant. -/
theorem missing_probe_short_circuit (ffinfo : Option MediaInfo) (origin : Nat)
    (h : ffinfo = none ∨ ∃ i, ffinfo = some i ∧ (i.format = none ∨ i.streams = none)) :
    SpaceAware.validateMp4ByFfprobe ffinfo origin =
      .ok ⟨false, some "missing format or streams", none, none⟩ ∧
    ValidationAware.validateMp4ByFfprobe ffinfo =
      ⟨false, some "missing_format_or_streams", none, none⟩ := by
  rcases h with rfl | ⟨i, rfl, hi⟩
  · exact ⟨rfl, rfl⟩
  · obtain ⟨fmt, strs⟩ := i
    rcases hi with hf | hs
    · have : fmt = none := hf
      subst this
      cases strs <;> exact ⟨rfl, rfl⟩
    · have : strs = none := hs
      subst this
      cases fmt <;> exact ⟨rfl, rfl⟩

/-- Witness for C3: the amended theorem applied to a probe result that has
streams but no format object. -/
theorem missing_probe_short_circuit_witness :
    SpaceAware.validateMp4ByFfprobe (some ⟨none, some []⟩) 7 =
      .ok ⟨false, some "missing format or streams", none, none⟩ ∧
    ValidationAware.validateMp4ByFfprobe (some ⟨none, some []⟩) =
      ⟨false, some "missing_format_or_streams", none, none⟩ :=
  missing_probe_short_circuit (some ⟨none, some []⟩) 7
    (Or.inr ⟨⟨none, some []⟩, rfl, Or.inl rfl⟩)

/-- C7 (counterexample): on an unsupported platform `getAvailableDiskSpace`
does not yield 0 — it throws `Error("Unsupported platform")`, and `main`
does not catch it, so the failure escapes instead of aborting cleanly. -/
theorem disk_space_unsupported_platform_throws :
    getAvailableDiskSpace "linux" ⟨none, ""⟩ = .error (.error "Unsupported platform") ∧
    mainSpaceGate "linux" ⟨none, ""⟩ = .error (.error "Unsupported platform") := by
  decide

/-- C7 (amended): when the free-space query command errors on the supported
platform, `getAvailableDiskSpace` returns 0 and `main` aborts the run
(0 is below `SPACE_THRESHOLD`); but an unsupported platform makes the
function throw, and the exception propagates out of `main` uncaught (see
the counterexample theorem). -/
theorem disk_space_query_error_aborts (res : SpawnSyncResult) (m : String)
    (h : res.error = some m) :
    getAvailableDiskSpace "win32" res = .ok (some 0) ∧
    mainSpaceGate "win32" res = .ok true := by
  obtain ⟨e, out⟩ := res
  have he : e = some m := h
  subst he
  exact ⟨rfl, rfl⟩

/-- Witness for C7: the amended theorem applied to a concrete failed spawn. -/
theorem disk_space_query_error_aborts_witness :
    getAvailableDiskSpace "win32" ⟨some "spawn fsutil ENOENT", ""⟩ = .ok (some 0) ∧
    mainSpaceGate "win32" ⟨some "spawn fsutil ENOENT", ""⟩ = .ok true :=
  disk_space_query_error_aborts ⟨some "spawn fsutil ENOENT", ""⟩ "spawn fsutil ENOENT" rfl

open SpaceAware in
/-- Helper: total size distributes over append. -/
theorem sumSizes_append (l l' : List FileTask) :
    sumSizes (l ++ l') = sumSizes l + sumSizes l' := by
  simp [sumSizes]

open SpaceAware in
/-- Helper: stable insertion permutes. -/
theorem insertByMtime_perm (t : FileTask) (l : List FileTask) :
    (insertByMtime t l).Perm (t :: l) := by
  induction l with
  | nil => exact List.Perm.refl _
  | cons u rest ih =>
    simp only [insertByMtime]
    split
    · exact (ih.cons u).trans (List.Perm.swap t u rest)
    · exact List.Perm.refl _

open SpaceAware in
/-- Helper: the sort permutes. -/
theorem sortByMtime_perm (l : List FileTask) : (sortByMtime l).Perm l := by
  induction l with
  | nil => exact List.Perm.refl _
  | cons t rest ih =>
    exact (insertByMtime_perm t (sortByMtime rest)).trans (ih.cons t)

open SpaceAware in
/-- Helper: the sort preserves total size. -/
theorem sumSizes_sortByMtime (l : List FileTask) :
    sumSizes (sortByMtime l) = sumSizes l := by
  unfold sumSizes
  exact ((sortByMtime_perm l).map (fun t => t.size)).sum_eq

open SpaceAware in
/-- Helper: inserting into a list sorted by mtime keeps it sorted. -/
theorem insertByMtime_sorted (t : FileTask) (l : List FileTask)
    (h : l.Pairwise (fun a b => a.mtime ≤ b.mtime)) :
    (insertByMtime t l).Pairwise (fun a b => a.mtime ≤ b.mtime) := by
  induction l with
  | nil => simp [insertByMtime]
  | cons u rest ih =>
    rw [List.pairwise_cons] at h
    obtain ⟨hu, hrest⟩ := h
    simp only [insertByMtime]
    split
    · rename_i hcond
      refine List.Pairwise.cons ?_ (ih hrest)
      intro x hx
      have hx2 := (insertByMtime_perm t rest).mem_iff.mp hx
      rcases List.mem_cons.mp hx2 with hxt | hxr
      · subst hxt; omega
      · exact hu x hxr
    · rename_i hcond
      refine List.Pairwise.cons ?_ (List.Pairwise.cons hu hrest)
      intro x hx
      rcases List.mem_cons.mp hx with hxu | hxr
      · subst hxu; omega
      · have := hu x hxr; omega

open SpaceAware in
/-- Helper: the sort output is sorted ascending by mtime. -/
theorem sortByMtime_sorted (l : List FileTask) :
    (sortByMtime l).Pairwise (fun a b => a.mtime ≤ b.mtime) := by
  induction l with
  | nil => simp [sortByMtime]
  | cons t rest ih => exact insertByMtime_sorted t (sortByMtime rest) ih

open SpaceAware in
/-- Helper: the walk keeps `totalSize` equal to the accumulated size and
never lets it exceed the batch bound. -/
theorem walkList_inv (cur : String) (es : List FSEntry) (st : CollectSt)
    (h1 : st.totalSize = sumSizes st.fileList)
    (h2 : st.totalSize ≤ MAX_BATCH_SIZE_BYTES) :
    (walkList cur es st).1.totalSize = sumSizes (walkList cur es st).1.fileList ∧
    (walkList cur es st).1.totalSize ≤ MAX_BATCH_SIZE_BYTES := by
  induction cur, es, st using walkList.induct with
  | case1 cur st => simpa [walkList] using ⟨h1, h2⟩
  | case2 cur st name sub rest st2 heq ih =>
    rw [walkList, heq]
    have := ih h1 h2
    rwa [heq] at this
  | case3 cur st name sub rest st2 heq ih1 ih2 =>
    rw [walkList, heq]
    have hmid := ih1 h1 h2
    rw [heq] at hmid
    exact ih2 hmid.1 hmid.2
  | case4 cur st name size mt ta rest hext hover =>
    simpa [walkList, hext, hover] using ⟨h1, h2⟩
  | case5 cur st name size mt ta rest hext hover ih =>
    rw [walkList, if_pos hext, if_neg hover]
    refine ih (by simp [sumSizes_append, sumSizes, h1]) ?_
    show st.totalSize + size ≤ MAX_BATCH_SIZE_BYTES
    omega
  | case6 cur st name size mt ta rest hext ih =>
    rw [walkList, if_neg hext]
    exact ih h1 h2

/-- C4: for every directory tree, the batch returned by the space-aware
`collectFiles` has total size at most `MAX_BATCH_SIZE_BYTES` and is sorted
non-decreasing by modification time. -/
theorem collectFiles_bounded_and_sorted (dir : String) (entries : List FSEntry) :
    SpaceAware.sumSizes (SpaceAware.collectFiles dir entries) ≤ MAX_BATCH_SIZE_BYTES ∧
    (SpaceAware.collectFiles dir entries).Pairwise (fun a b => a.mtime ≤ b.mtime) := by
  have h := walkList_inv dir entries ⟨[], 0⟩ (by simp [SpaceAware.sumSizes]) (Nat.zero_le _)
  refine ⟨?_, sortByMtime_sorted _⟩
  unfold SpaceAware.collectFiles
  rw [sumSizes_sortByMtime]
  omega

open SpaceAware in
/-- Helper: total size of a cons. -/
theorem sumSizes_cons (t : FileTask) (l : List FileTask) :
    sumSizes (t :: l) = t.size + sumSizes l := by
  simp [sumSizes]

open SpaceAware in
/-- Helper: the greedy cutoff over an appended candidate list: if the first
part already stops, the second part is never looked at; otherwise the scan
continues into the second part with the updated running total. -/
theorem greedyF_append (u : Nat) (A B : List FileTask) :
    greedyF u (A ++ B) =
      if (greedyF u A).2 then ((greedyF u A).1, true)
      else ((greedyF u A).1 ++ (greedyF (u + sumSizes (greedyF u A).1) B).1,
            (greedyF (u + sumSizes (greedyF u A).1) B).2) := by
  induction A generalizing u with
  | nil => simp [greedyF, sumSizes]
  | cons t A' ih =>
    simp only [List.cons_append, greedyF, List.append_eq]
    by_cases hc : u + t.size > MAX_BATCH_SIZE_BYTES
    · simp [hc]
    · simp only [if_neg hc]
      rw [ih (u + t.size)]
      by_cases hs : (greedyF (u + t.size) A').2
      · simp [hs]
      · simp [hs, sumSizes_cons, Nat.add_assoc]

open SpaceAware in
/-- Helper: the walk is exactly the greedy global cutoff applied to the
candidate sequence in traversal order. -/
theorem walkList_eq_greedy (cur : String) (es : List FSEntry) (st : CollectSt) :
    walkList cur es st =
      (⟨st.fileList ++ (greedyF st.totalSize (candidates cur es)).1,
        st.totalSize + sumSizes (greedyF st.totalSize (candidates cur es)).1⟩,
       (greedyF st.totalSize (candidates cur es)).2) := by
  induction cur, es, st using walkList.induct with
  | case1 cur st => simp [walkList, candidates, greedyF, sumSizes]
  | case2 cur st name sub rest st2 heq ih =>
    rw [walkList, heq]
    have h := ih.symm.trans heq
    have hA := congrArg Prod.fst h
    have hB := congrArg Prod.snd h
    simp only at hA hB
    rw [candidates, greedyF_append, hB]
    simp only [if_true, ite_true]
    rw [← hA]
  | case3 cur st name sub rest st2 heq ih1 ih2 =>
    rw [walkList, heq]
    have h := ih1.symm.trans heq
    have hA := congrArg Prod.fst h
    have hB := congrArg Prod.snd h
    simp only at hA hB
    rw [candidates, greedyF_append, hB]
    simp only [if_false, ite_false, Bool.false_eq_true]
    rw [ih2, ← hA]
    simp [List.append_assoc, Nat.add_assoc, sumSizes_append]
  | case4 cur st name size mt ta rest hext hover =>
    rw [walkList, if_pos hext, if_pos hover, candidates, if_pos hext]
    simp [greedyF, hover, sumSizes]
  | case5 cur st name size mt ta rest hext hover ih =>
    rw [walkList, if_pos hext, if_neg hover, ih, candidates, if_pos hext]
    simp only [greedyF, if_neg hover]
    simp [sumSizes_cons, List.append_assoc, Nat.add_assoc]
  | case6 cur st name size mt ta rest hext ih =>
    rw [walkList, if_neg hext, ih, candidates, if_neg hext]

open SpaceAware in
/-- Helper: when the first budget violation happens at index `i` of the
candidate list, the greedy cutoff returns exactly the first `i` candidates
and reports the stop. -/
theorem greedyF_take (cs : List FileTask) : ∀ (i u : Nat) (h : i < cs.length),
    (∀ j (hj : j < i),
      u + sumSizes (cs.take j) + (cs.get ⟨j, hj.trans h⟩).size ≤ MAX_BATCH_SIZE_BYTES) →
    u + sumSizes (cs.take i) + (cs.get ⟨i, h⟩).size > MAX_BATCH_SIZE_BYTES →
    greedyF u cs = (cs.take i, true) := by
  induction cs with
  | nil => intro i u h; exact absurd h (by simp)
  | cons c cs' ih =>
    intro i u h hfeas hviol
    cases i with
    | zero =>
      have hover : u + c.size > MAX_BATCH_SIZE_BYTES := by
        simpa [sumSizes] using hviol
      simp [greedyF, hover]
    | succ k =>
      have h0 := hfeas 0 (Nat.succ_pos k)
      have hc : ¬ u + c.size > MAX_BATCH_SIZE_BYTES := by
        simp only [List.take, sumSizes, List.map_nil, List.sum_nil, List.get] at h0
        omega
      have hrec := ih k (u + c.size) (Nat.lt_of_succ_lt_succ h)
        (fun j hj => by
          have := hfeas (j + 1) (Nat.succ_lt_succ hj)
          simp only [List.take, sumSizes_cons, List.get] at this
          have hs : sumSizes ((c :: cs').take (j + 1)) =
              c.size + sumSizes (cs'.take j) := by
            simp [List.take, sumSizes_cons]
          omega)
        (by
          have := hviol
          have hs : sumSizes ((c :: cs').take (k + 1)) =
              c.size + sumSizes (cs'.take k) := by
            simp [List.take, sumSizes_cons]
          simp only [List.get] at this
          omega)
      rw [greedyF, if_neg hc]
      simp [hrec, List.take]

/-- C5: in the space-aware `collectFiles`, the first time a candidate would
push the running total beyond `MAX_BATCH_SIZE_BYTES` the entire traversal
halts globally: the walk returns exactly the candidates accepted before
that point (in traversal order, across directory boundaries), and every
later matching file — however small — is excluded from the returned batch,
which is the sort of that prefix. -/
theorem collect_global_early_exit (dir : String) (es : List FSEntry) (i : Nat)
    (h : i < (SpaceAware.candidates dir es).length)
    (hfeas : ∀ j (hj : j < i),
      SpaceAware.sumSizes ((SpaceAware.candidates dir es).take j) +
        ((SpaceAware.candidates dir es).get ⟨j, hj.trans h⟩).size ≤ MAX_BATCH_SIZE_BYTES)
    (hviol : SpaceAware.sumSizes ((SpaceAware.candidates dir es).take i) +
        ((SpaceAware.candidates dir es).get ⟨i, h⟩).size > MAX_BATCH_SIZE_BYTES) :
    (SpaceAware.walkList dir es ⟨[], 0⟩).1.fileList = (SpaceAware.candidates dir es).take i ∧
    SpaceAware.collectFiles dir es =
      SpaceAware.sortByMtime ((SpaceAware.candidates dir es).take i) := by
  have hg := greedyF_take (SpaceAware.candidates dir es) i 0 h
    (fun j hj => by have := hfeas j hj; omega)
    (by omega)
  have he := walkList_eq_greedy dir es ⟨[], 0⟩
  constructor
  · rw [he]
    simp [hg]
  · unfold SpaceAware.collectFiles
    rw [he]
    simp [hg]

/-- Witness for C5: in `cutoffTree` the 70 GB file inside the subdirectory
is the first violating candidate (index 1); the walk returns only the first
candidate, excluding the 5-byte sibling and the later 7-byte top-level
file. -/
theorem collect_global_early_exit_witness :
    (SpaceAware.walkList (pathJoin BASE_DIR "快手直播") cutoffTree ⟨[], 0⟩).1.fileList =
      (SpaceAware.candidates (pathJoin BASE_DIR "快手直播") cutoffTree).take 1 ∧
    SpaceAware.collectFiles (pathJoin BASE_DIR "快手直播") cutoffTree =
      SpaceAware.sortByMtime
        ((SpaceAware.candidates (pathJoin BASE_DIR "快手直播") cutoffTree).take 1) := by
  have hc : SpaceAware.candidates (pathJoin BASE_DIR "快手直播") cutoffTree =
      [⟨pathJoin (pathJoin BASE_DIR "快手直播") "a.flv", 1073741824, 1, 1⟩,
       ⟨pathJoin (pathJoin (pathJoin BASE_DIR "快手直播") "sub") "big.flv", MAX_BATCH_SIZE_BYTES, 2, 2⟩,
       ⟨pathJoin (pathJoin (pathJoin BASE_DIR "快手直播") "sub") "tiny.flv", 5, 3, 3⟩,
       ⟨pathJoin (pathJoin BASE_DIR "快手直播") "late.flv", 7, 4, 4⟩] := by
    simp [SpaceAware.candidates, cutoffTree,
      show extMatches "a.flv" = true from by decide,
      show extMatches "big.flv" = true from by decide,
      show extMatches "tiny.flv" = true from by decide,
      show extMatches "late.flv" = true from by decide]
  refine collect_global_early_exit _ _ 1 ?_ ?_ ?_
  · rw [hc]
    simp
  · intro j hj
    have hj0 : j = 0 := by omega
    subst hj0
    rw [List.get_of_eq hc, show SpaceAware.sumSizes
        ((SpaceAware.candidates (pathJoin BASE_DIR "快手直播") cutoffTree).take 0) = 0 from by
      simp [SpaceAware.sumSizes]]
    simp [MAX_BATCH_SIZE_BYTES]
  · rw [List.get_of_eq hc, show (SpaceAware.candidates
        (pathJoin BASE_DIR "快手直播") cutoffTree).take 1 =
        [⟨pathJoin (pathJoin BASE_DIR "快手直播") "a.flv", 1073741824, 1, 1⟩] from by
      rw [hc]; rfl]
    simp [SpaceAware.sumSizes, MAX_BATCH_SIZE_BYTES]

/-- C2: the claim states every per-file error inside the conversion worker
is caught and the batch continues.  It is not: when the probe returns null
after a clean transcoder exit, the validator's early return carries only a
singular `reason` field, and the worker's failure branch then evaluates
`validation.reasons.join(', ')` on `undefined`.  The resulting `TypeError`
escapes the close handler (the awaited promise is never resolved), so the
second file of the batch is never processed. -/
theorem probe_error_aborts_batch :
    (SpaceAware.runBatch envNullProbe wTwoSources).err = some (.typeError "join of undefined") ∧
    Event.spawned pA ∈ (SpaceAware.runBatch envNullProbe wTwoSources).trace ∧
    Event.spawned pB ∉ (SpaceAware.runBatch envNullProbe wTwoSources).trace := by
  decide

/-- C6 (counterexample): after a non-zero transcoder exit, `convert.js`
does not delete the partial output: the file written by the transcoder is
still present (alongside the untouched source, an ERROR log and no ledger
entry), contradicting the claim that every variant deletes it. -/
theorem nonzero_exit_convertjs_keeps_output :
    List.lookup "D:\\cap\\v.mp4"
        (ConvertJs.convertVideoStreamCopy envExitOne pV wOneSource).world.files = some ⟨1000, 0, 0⟩ ∧
    ("ERROR", "转换失败: D:\\cap\\v.flv。错误代码: 1") ∈
      (ConvertJs.convertVideoStreamCopy envExitOne pV wOneSource).world.logs ∧
    (ConvertJs.convertVideoStreamCopy envExitOne pV wOneSource).world.ledger = [] ∧
    List.lookup pV (ConvertJs.convertVideoStreamCopy envExitOne pV wOneSource).world.files =
      some ⟨99, 1, 1⟩ := by
  decide

/-- C8: the claim quantifies over every failing validation.  For a failing
validation that carries a reasons list the code behaves as claimed: the
output is deleted, exactly one ledger line with the source path and the
comma-joined reason codes is appended, a WARNING is logged, and the source
is preserved.  But for the reason-less early-return result (null probe)
the worker deletes the output and then throws a `TypeError` before the
ledger append: no line is written and no WARNING recorded, in both part_001
variants. -/
theorem validation_fail_ledger_and_cleanup :
    (SpaceAware.convertFlvToMp4 envProbeNone8 t8 w8).err = some (.typeError "join of undefined") ∧
    (SpaceAware.convertFlvToMp4 envProbeNone8 t8 w8).world.ledger = [] ∧
    List.lookup (outputPathOf t8.fullPath)
      (SpaceAware.convertFlvToMp4 envProbeNone8 t8 w8).world.files = none ∧
    List.lookup t8.fullPath (SpaceAware.convertFlvToMp4 envProbeNone8 t8 w8).world.files =
      some ⟨5000000, 3, 4⟩ ∧
    (ValidationAware.convertFlvToMp4 envProbeNone8 t8.fullPath w8).err =
      some (.typeError "join of undefined") ∧
    (ValidationAware.convertFlvToMp4 envProbeNone8 t8.fullPath w8).world.ledger = [] ∧
    (SpaceAware.convertFlvToMp4 envBadAudio8 t8 w8).err = none ∧
    (SpaceAware.convertFlvToMp4 envBadAudio8 t8 w8).world.ledger =
      ["文件: D:\\04_Temp\\直播\\快手直播\\c.flv 未通过自动验证。原因: audio_stream_not_aac_mp4a, nb_streams_lt_2"] ∧
    ("WARNING", "记录到人工审查清单: D:\\04_Temp\\直播\\快手直播\\c.flv") ∈
      (SpaceAware.convertFlvToMp4 envBadAudio8 t8 w8).world.logs ∧
    List.lookup (outputPathOf t8.fullPath)
      (SpaceAware.convertFlvToMp4 envBadAudio8 t8 w8).world.files = none ∧
    List.lookup t8.fullPath (SpaceAware.convertFlvToMp4 envBadAudio8 t8 w8).world.files =
      some ⟨5000000, 3, 4⟩ := by
  decide

/-- Helper: takeWhile over a cons whose head satisfies the predicate. -/
theorem takeWhile_cons_pos {α : Type} (p : α → Bool) (a : α) (l : List α)
    (h : p a = true) : List.takeWhile p (a :: l) = a :: List.takeWhile p l := by
  simp [List.takeWhile_cons, h]

/-- Helper: takeWhile over a cons whose head falsifies the predicate. -/
theorem takeWhile_cons_neg {α : Type} (p : α → Bool) (a : α) (l : List α)
    (h : p a = false) : List.takeWhile p (a :: l) = [] := by
  simp [List.takeWhile_cons, h]

/-- Helper: the basename of a path ending in `.mp4` is the matching tail of
its last segment followed by `.mp4`. -/
theorem baseNameChars_mp4_suffix (p : String) (l : List Char)
    (hp : p.data = l ++ ['.', 'm', 'p', '4']) :
    baseNameChars p.data =
      (List.takeWhile (fun c => !isPathSep c) l.reverse).reverse ++ ['.', 'm', 'p', '4'] := by
  unfold baseNameChars
  have hrev : p.data.reverse = '4' :: 'p' :: 'm' :: '.' :: l.reverse := by
    rw [hp]; simp
  rw [hrev, takeWhile_cons_pos _ _ _ (by decide), takeWhile_cons_pos _ _ _ (by decide),
      takeWhile_cons_pos _ _ _ (by decide), takeWhile_cons_pos _ _ _ (by decide)]
  simp

/-- Helper: the extension of a path ending in `.mp4` is either empty (the
whole last segment is `.mp4`, a dotfile) or `.mp4` itself. -/
theorem extname_of_mp4_suffix (p : String) (l : List Char)
    (hp : p.data = l ++ ['.', 'm', 'p', '4']) :
    extname p = "" ∨ extname p = ".mp4" := by
  unfold extname extNameChars
  rw [baseNameChars_mp4_suffix p l hp]
  cases hk : List.takeWhile (fun c => !isPathSep c) l.reverse with
  | nil =>
    left
    simp [takeWhile_cons_pos, takeWhile_cons_neg]
  | cons c k' =>
    right
    have h1 : (((c :: k').reverse ++ ['.', 'm', 'p', '4']).reverse) =
        '4' :: 'p' :: 'm' :: '.' :: (c :: k') := by
      rw [List.reverse_append, List.reverse_reverse]
      rfl
    have h2 : List.takeWhile (fun d => !d == '.')
        ('4' :: 'p' :: 'm' :: '.' :: (c :: k')) = ['4', 'p', 'm'] := by
      rw [takeWhile_cons_pos _ _ _ (by decide), takeWhile_cons_pos _ _ _ (by decide),
          takeWhile_cons_pos _ _ _ (by decide), takeWhile_cons_neg _ _ _ (by decide)]
    simp only [h1, h2]
    rw [if_neg (by
      simp only [List.length_append, List.length_reverse, List.length_cons]
      omega)]
    rfl

/-- Helper: a path ending in `.mp4` never has a convertible extension. -/
theorem extMatches_no_mp4_suffix (p : String) (l : List Char)
    (hp : p.data = l ++ ['.', 'm', 'p', '4']) : extMatches p = false := by
  rcases extname_of_mp4_suffix p l hp with h | h <;>
    · unfold extMatches
      rw [h]
      decide

/-- Helper: the part_001 output path always ends in `.mp4`. -/
theorem outputPathOf_ends_mp4 (x : String) :
    ∃ l, (outputPathOf x).data = l ++ ['.', 'm', 'p', '4'] := by
  refine ⟨(OUTPUT_DIR ++ "\\").data ++ (sourceBase x).data, ?_⟩
  unfold outputPathOf pathJoin
  rw [String.data_append, String.data_append, List.append_assoc]
  rfl

/-- Helper: the `convert.js` output path always ends in `.mp4`. -/
theorem convertJsOutputPath_ends_mp4 (x : String) :
    ∃ l, (ConvertJs.convertJsOutputPath x).data = l ++ ['.', 'm', 'p', '4'] := by
  refine ⟨(String.mk (x.data.take ((ConvertJs.lastOccIdx x.data (extname x).data).getD 0))).data, ?_⟩
  unfold ConvertJs.convertJsOutputPath
  rw [String.data_append]

/-- Helper: a source with a convertible extension is never any worker's
output path. -/
theorem extMatches_ne_outputPath (p x : String) (h : extMatches p = true) :
    outputPathOf x ≠ p := by
  intro he
  obtain ⟨l, hl⟩ := outputPathOf_ends_mp4 x
  rw [he] at hl
  rw [extMatches_no_mp4_suffix p l hl] at h
  exact absurd h (by simp)

/-- Helper: the same for the in-place `convert.js` output path. -/
theorem extMatches_ne_convertJsOutputPath (p x : String) (h : extMatches p = true) :
    ConvertJs.convertJsOutputPath x ≠ p := by
  intro he
  obtain ⟨l, hl⟩ := convertJsOutputPath_ends_mp4 x
  rw [he] at hl
  rw [extMatches_no_mp4_suffix p l hl] at h
  exact absurd h (by simp)

/-- Helper: lookup after removing a key. -/
theorem lookup_fsRemove (p q : String) (fs : List (String × FileData)) :
    List.lookup p (fsRemove q fs) = if p = q then none else List.lookup p fs := by
  induction fs with
  | nil => simp [fsRemove]
  | cons e rest ih =>
    obtain ⟨k, v⟩ := e
    by_cases hkq : k = q
    · subst hkq
      by_cases hpk : p = k
      · subst hpk
        simpa [fsRemove, List.lookup_cons] using ih
      · simp only [fsRemove, List.filter_cons] at ih ⊢
        simp [List.lookup_cons, hpk, ih, show (p == k) = false from by simp [hpk]]
    · by_cases hpk : p = k
      · subst hpk
        simp [fsRemove, List.filter_cons, List.lookup_cons, hkq,
          show (p == p) = true from by simp]
      · simp only [fsRemove, List.filter_cons] at ih ⊢
        simp [List.lookup_cons, hpk, hkq, ih, show (p == k) = false from by simp [hpk],
          show (k == q) = false from by simp [hkq]]

/-- Helper: lookup after writing a file. -/
theorem lookup_fsWrite (p q : String) (d : FileData) (fs : List (String × FileData)) :
    List.lookup p (fsWrite q d fs) = if p = q then some d else List.lookup p fs := by
  unfold fsWrite
  by_cases hpq : p = q
  · subst hpq
    simp [List.lookup_cons, show (p == p) = true from by simp]
  · simp [List.lookup_cons, hpq, lookup_fsRemove,
      show (p == q) = false from by simp [hpq]]

/-- Helper: retouching timestamps never resurrects an absent path. -/
theorem lookup_fsSetTimes_none (p q : String) (ta mt : Int) (fs : List (String × FileData))
    (h : List.lookup p fs = none) :
    List.lookup p (fsSetTimes q ta mt fs) = none := by
  induction fs with
  | nil => rfl
  | cons e rest ih =>
    obtain ⟨k, v⟩ := e
    rw [List.lookup_cons] at h
    by_cases hpk : p = k
    · rw [show (p == k) = true from by simp [hpk]] at h
      exact absurd h (by simp)
    · rw [show (p == k) = false from by simp [hpk]] at h
      have hrec := ih h
      unfold fsSetTimes at hrec ⊢
      simp only [beq_iff_eq] at hrec
      simp only [List.map_cons]
      by_cases hkq : (k == q) = true <;>
        simp [List.lookup_cons, hkq, show (p == k) = false from by simp [hpk], hrec,
          -List.lookup_eq_none_iff]

/-- Helper: an absent path stays absent through `existsSync = false`. -/
theorem existsSync_false_lookup (p : String) (w : World) (h : existsSync p w = false) :
    List.lookup p w.files = none := by
  unfold existsSync at h
  cases hlk : List.lookup p w.files with
  | none => rfl
  | some d => rw [hlk] at h; simp at h

/-- Helper: non-zero exit handling of the space-aware worker: no exception,
no ledger entry, no partial output left, source untouched, no commit, and
an ERROR line logged. -/
theorem spaceAware_nonzero_exit (env : Env) (t : FileTask) (w : World)
    (hex : existsSync (outputPathOf t.fullPath) w = false)
    (hsp : env.spawnError t.fullPath = none)
    (hcode : ¬ env.exitCode t.fullPath = 0)
    (hne : outputPathOf t.fullPath ≠ t.fullPath) :
    (SpaceAware.convertFlvToMp4 env t w).err = none ∧
    (SpaceAware.convertFlvToMp4 env t w).world.ledger = w.ledger ∧
    List.lookup (outputPathOf t.fullPath) (SpaceAware.convertFlvToMp4 env t w).world.files = none ∧
    List.lookup t.fullPath (SpaceAware.convertFlvToMp4 env t w).world.files =
      List.lookup t.fullPath w.files ∧
    Event.committed t.fullPath ∉ (SpaceAware.convertFlvToMp4 env t w).trace ∧
    ("ERROR", "转换失败: " ++ t.fullPath ++ "。ffmpeg 返回代码: " ++
      toString (env.exitCode t.fullPath)) ∈ (SpaceAware.convertFlvToMp4 env t w).world.logs := by
  have hb : (env.exitCode t.fullPath == 0) = false := by
    simpa using hcode
  have hlk : List.lookup (outputPathOf t.fullPath) w.files = none :=
    existsSync_false_lookup _ _ hex
  simp only [SpaceAware.convertFlvToMp4, hex, Bool.false_eq_true, if_false, hsp,
    SpaceAware.onClose, hb]
  have hne2 : ¬ t.fullPath = outputPathOf t.fullPath := fun h => hne h.symm
  cases henv : env.outFile t.fullPath with
  | none =>
    simp only [ffmpegEffect, henv, writeLog, existsSync, hlk, Option.isSome_none,
      Bool.false_eq_true, if_false]
    simp [hlk]
  | some d =>
    simp only [ffmpegEffect, henv, writeLog, existsSync, unlinkFile]
    rw [lookup_fsWrite]
    simp only [if_pos rfl, Option.isSome_some, if_true, ite_true]
    simp [lookup_fsRemove, lookup_fsWrite, hne2]

/-- Helper: non-zero exit handling of the validation-aware worker: same
outcome as the space-aware one (ERROR log, partial output deleted, no
ledger entry, source untouched). -/
theorem validationAware_nonzero_exit (env : Env) (p : String) (w : World)
    (hex : existsSync (outputPathOf p) w = false)
    (hsp : env.spawnError p = none)
    (hcode : ¬ env.exitCode p = 0)
    (hne : outputPathOf p ≠ p) :
    (ValidationAware.convertFlvToMp4 env p w).err = none ∧
    (ValidationAware.convertFlvToMp4 env p w).world.ledger = w.ledger ∧
    List.lookup (outputPathOf p) (ValidationAware.convertFlvToMp4 env p w).world.files = none ∧
    List.lookup p (ValidationAware.convertFlvToMp4 env p w).world.files =
      List.lookup p w.files ∧
    Event.committed p ∉ (ValidationAware.convertFlvToMp4 env p w).trace ∧
    ("ERROR", "转换失败: " ++ p ++ "。ffmpeg 返回代码: " ++ toString (env.exitCode p)) ∈
      (ValidationAware.convertFlvToMp4 env p w).world.logs := by
  have hb : (env.exitCode p == 0) = false := by simpa using hcode
  have hlk : List.lookup (outputPathOf p) w.files = none := existsSync_false_lookup _ _ hex
  have hne2 : ¬ p = outputPathOf p := fun h => hne h.symm
  simp only [ValidationAware.convertFlvToMp4, hex, Bool.false_eq_true, if_false, hsp,
    ValidationAware.onClose, hb]
  cases hT : List.lookup p w.files with
  | none =>
    cases henv : env.outFile p with
    | none =>
      simp only [ffmpegEffect, henv, writeLog, existsSync, hlk, Option.isSome_none,
        Bool.false_eq_true, if_false]
      simp [hlk, hT]
    | some d =>
      simp only [ffmpegEffect, henv, writeLog, existsSync, unlinkFile]
      rw [lookup_fsWrite]
      simp only [if_pos rfl, Option.isSome_some, if_true, ite_true]
      simp [lookup_fsRemove, lookup_fsWrite, hne2, hT]
  | some td =>
    cases henv : env.outFile p with
    | none =>
      simp only [ffmpegEffect, henv, writeLog, existsSync, hlk, Option.isSome_none,
        Bool.false_eq_true, if_false]
      simp [hlk, hT]
    | some d =>
      simp only [ffmpegEffect, henv, writeLog, existsSync, unlinkFile]
      rw [lookup_fsWrite]
      simp only [if_pos rfl, Option.isSome_some, if_true, ite_true]
      simp [lookup_fsRemove, lookup_fsWrite, hne2, hT]

/-- Helper: non-zero exit handling of `convert.js`: ERROR log, no ledger
(the variant has none), source untouched — but whatever partial output the
transcoder wrote is left exactly in place. -/
theorem convertJs_nonzero_exit (env : Env) (p : String) (w : World)
    (hex : existsSync (ConvertJs.convertJsOutputPath p) w = false)
    (hsp : env.spawnError p = none)
    (hcode : ¬ env.exitCode p = 0)
    (hne : ConvertJs.convertJsOutputPath p ≠ p) :
    (ConvertJs.convertVideoStreamCopy env p w).err = none ∧
    (ConvertJs.convertVideoStreamCopy env p w).world.ledger = w.ledger ∧
    List.lookup (ConvertJs.convertJsOutputPath p)
      (ConvertJs.convertVideoStreamCopy env p w).world.files = env.outFile p ∧
    List.lookup p (ConvertJs.convertVideoStreamCopy env p w).world.files =
      List.lookup p w.files ∧
    Event.committed p ∉ (ConvertJs.convertVideoStreamCopy env p w).trace ∧
    ("ERROR", "转换失败: " ++ p ++ "。错误代码: " ++ toString (env.exitCode p)) ∈
      (ConvertJs.convertVideoStreamCopy env p w).world.logs := by
  have hb : (env.exitCode p == 0) = false := by simpa using hcode
  have hlk : List.lookup (ConvertJs.convertJsOutputPath p) w.files = none :=
    existsSync_false_lookup _ _ hex
  have hne2 : ¬ p = ConvertJs.convertJsOutputPath p := fun h => hne h.symm
  simp only [ConvertJs.convertVideoStreamCopy, hex, Bool.false_eq_true, if_false, hsp, hb]
  cases hT : List.lookup p w.files with
  | none =>
    cases henv : env.outFile p with
    | none =>
      simp only [ffmpegEffect, henv, writeLog]
      simp [hlk, hT]
    | some d =>
      simp only [ffmpegEffect, henv, writeLog]
      simp [lookup_fsWrite, hne2, hT]
  | some td =>
    cases henv : env.outFile p with
    | none =>
      simp only [ffmpegEffect, henv, writeLog]
      simp [hlk, hT]
    | some d =>
      simp only [ffmpegEffect, henv, writeLog]
      simp [lookup_fsWrite, hne2, hT]

/-- C6 (amended): for every file whose transcoder exits non-zero, all three
variants log an ERROR, write no manual-review ledger entry, leave the
source untouched, and terminate that file's processing without raising; the
two part_001 variants also delete any partial output, but `convert.js`
leaves the partial output exactly as the transcoder wrote it (see the
counterexample theorem). -/
theorem nonzero_exit_handling (env : Env) (t : FileTask) (w : World)
    (hcode : ¬ env.exitCode t.fullPath = 0)
    (hsp : env.spawnError t.fullPath = none)
    (hex1 : existsSync (outputPathOf t.fullPath) w = false)
    (hex2 : existsSync (ConvertJs.convertJsOutputPath t.fullPath) w = false)
    (hmatch : extMatches t.fullPath = true) :
    ((SpaceAware.convertFlvToMp4 env t w).err = none ∧
     (SpaceAware.convertFlvToMp4 env t w).world.ledger = w.ledger ∧
     List.lookup (outputPathOf t.fullPath)
       (SpaceAware.convertFlvToMp4 env t w).world.files = none ∧
     List.lookup t.fullPath (SpaceAware.convertFlvToMp4 env t w).world.files =
       List.lookup t.fullPath w.files ∧
     Event.committed t.fullPath ∉ (SpaceAware.convertFlvToMp4 env t w).trace ∧
     ("ERROR", "转换失败: " ++ t.fullPath ++ "。ffmpeg 返回代码: " ++
       toString (env.exitCode t.fullPath)) ∈ (SpaceAware.convertFlvToMp4 env t w).world.logs) ∧
    ((ValidationAware.convertFlvToMp4 env t.fullPath w).err = none ∧
     (ValidationAware.convertFlvToMp4 env t.fullPath w).world.ledger = w.ledger ∧
     List.lookup (outputPathOf t.fullPath)
       (ValidationAware.convertFlvToMp4 env t.fullPath w).world.files = none ∧
     List.lookup t.fullPath (ValidationAware.convertFlvToMp4 env t.fullPath w).world.files =
       List.lookup t.fullPath w.files ∧
     Event.committed t.fullPath ∉ (ValidationAware.convertFlvToMp4 env t.fullPath w).trace ∧
     ("ERROR", "转换失败: " ++ t.fullPath ++ "。ffmpeg 返回代码: " ++
       toString (env.exitCode t.fullPath)) ∈
       (ValidationAware.convertFlvToMp4 env t.fullPath w).world.logs) ∧
    ((ConvertJs.convertVideoStreamCopy env t.fullPath w).err = none ∧
     (ConvertJs.convertVideoStreamCopy env t.fullPath w).world.ledger = w.ledger ∧
     List.lookup (ConvertJs.convertJsOutputPath t.fullPath)
       (ConvertJs.convertVideoStreamCopy env t.fullPath w).world.files = env.outFile t.fullPath ∧
     List.lookup t.fullPath (ConvertJs.convertVideoStreamCopy env t.fullPath w).world.files =
       List.lookup t.fullPath w.files ∧
     Event.committed t.fullPath ∉ (ConvertJs.convertVideoStreamCopy env t.fullPath w).trace ∧
     ("ERROR", "转换失败: " ++ t.fullPath ++ "。错误代码: " ++
       toString (env.exitCode t.fullPath)) ∈
       (ConvertJs.convertVideoStreamCopy env t.fullPath w).world.logs) :=
  ⟨spaceAware_nonzero_exit env t w hex1 hsp hcode (extMatches_ne_outputPath _ _ hmatch),
   validationAware_nonzero_exit env t.fullPath w hex1 hsp hcode
     (extMatches_ne_outputPath _ _ hmatch),
   convertJs_nonzero_exit env t.fullPath w hex2 hsp hcode
     (extMatches_ne_convertJsOutputPath _ _ hmatch)⟩

/-- Witness for C6: the amended theorem applied to a concrete exit-code-2
run on an empty output directory. -/
theorem nonzero_exit_handling_witness :
    ((SpaceAware.convertFlvToMp4 envExit2 tC6 wEmpty).err = none ∧
     (SpaceAware.convertFlvToMp4 envExit2 tC6 wEmpty).world.ledger = wEmpty.ledger ∧
     List.lookup (outputPathOf tC6.fullPath)
       (SpaceAware.convertFlvToMp4 envExit2 tC6 wEmpty).world.files = none ∧
     List.lookup tC6.fullPath (SpaceAware.convertFlvToMp4 envExit2 tC6 wEmpty).world.files =
       List.lookup tC6.fullPath wEmpty.files ∧
     Event.committed tC6.fullPath ∉ (SpaceAware.convertFlvToMp4 envExit2 tC6 wEmpty).trace ∧
     ("ERROR", "转换失败: " ++ tC6.fullPath ++ "。ffmpeg 返回代码: " ++
       toString (envExit2.exitCode tC6.fullPath)) ∈
       (SpaceAware.convertFlvToMp4 envExit2 tC6 wEmpty).world.logs) ∧
    ((ValidationAware.convertFlvToMp4 envExit2 tC6.fullPath wEmpty).err = none ∧
     (ValidationAware.convertFlvToMp4 envExit2 tC6.fullPath wEmpty).world.ledger = wEmpty.ledger ∧
     List.lookup (outputPathOf tC6.fullPath)
       (ValidationAware.convertFlvToMp4 envExit2 tC6.fullPath wEmpty).world.files = none ∧
     List.lookup tC6.fullPath
       (ValidationAware.convertFlvToMp4 envExit2 tC6.fullPath wEmpty).world.files =
       List.lookup tC6.fullPath wEmpty.files ∧
     Event.committed tC6.fullPath ∉
       (ValidationAware.convertFlvToMp4 envExit2 tC6.fullPath wEmpty).trace ∧
     ("ERROR", "转换失败: " ++ tC6.fullPath ++ "。ffmpeg 返回代码: " ++
       toString (envExit2.exitCode tC6.fullPath)) ∈
       (ValidationAware.convertFlvToMp4 envExit2 tC6.fullPath wEmpty).world.logs) ∧
    ((ConvertJs.convertVideoStreamCopy envExit2 tC6.fullPath wEmpty).err = none ∧
     (ConvertJs.convertVideoStreamCopy envExit2 tC6.fullPath wEmpty).world.ledger =
       wEmpty.ledger ∧
     List.lookup (ConvertJs.convertJsOutputPath tC6.fullPath)
       (ConvertJs.convertVideoStreamCopy envExit2 tC6.fullPath wEmpty).world.files =
       envExit2.outFile tC6.fullPath ∧
     List.lookup tC6.fullPath
       (ConvertJs.convertVideoStreamCopy envExit2 tC6.fullPath wEmpty).world.files =
       List.lookup tC6.fullPath wEmpty.files ∧
     Event.committed tC6.fullPath ∉
       (ConvertJs.convertVideoStreamCopy envExit2 tC6.fullPath wEmpty).trace ∧
     ("ERROR", "转换失败: " ++ tC6.fullPath ++ "。错误代码: " ++
       toString (envExit2.exitCode tC6.fullPath)) ∈
       (ConvertJs.convertVideoStreamCopy envExit2 tC6.fullPath wEmpty).world.logs) :=
  nonzero_exit_handling envExit2 tC6 wEmpty (by decide) (by decide) (by decide) (by decide)
    (by decide)

/-- C10: the space-aware output path depends on the source path only
through its basename, so two tasks with distinct paths but equal basenames
collide on one output path; when the worker meets an already-existing
output path, it takes the skip branch: no transcoder spawn (empty trace),
the ledger is untouched, no error — and, because `isDel` is set, the only
filesystem change is the deletion of that task's source, even though no
output was ever produced from it. -/
theorem basename_collision_skip :
    (∀ p1 p2 : String, sourceBase p1 = sourceBase p2 → outputPathOf p1 = outputPathOf p2) ∧
    (∀ (env : Env) (t : FileTask) (w : World),
      existsSync (outputPathOf t.fullPath) w = true →
      (SpaceAware.convertFlvToMp4 env t w).trace = [] ∧
      (SpaceAware.convertFlvToMp4 env t w).world.files = fsRemove t.fullPath w.files ∧
      (SpaceAware.convertFlvToMp4 env t w).world.ledger = w.ledger ∧
      (SpaceAware.convertFlvToMp4 env t w).err = none) := by
  constructor
  · intro p1 p2 h
    unfold outputPathOf
    rw [h]
  · intro env t w hex
    simp [SpaceAware.convertFlvToMp4, hex, isDel, writeLog, unlinkFile]

/-- Witness for C10: `D:\live\a\clip.flv` and `D:\live\b\clip.flv` map to
the same output path, and processing the second task while `clip.mp4`
already exists deletes its source without spawning the transcoder. -/
theorem basename_collision_skip_witness :
    outputPathOf "D:\\live\\a\\clip.flv" = outputPathOf "D:\\live\\b\\clip.flv" ∧
    ((SpaceAware.convertFlvToMp4 envC10 tC10 wC10).trace = [] ∧
     (SpaceAware.convertFlvToMp4 envC10 tC10 wC10).world.files =
       fsRemove tC10.fullPath wC10.files ∧
     (SpaceAware.convertFlvToMp4 envC10 tC10 wC10).world.ledger = wC10.ledger ∧
     (SpaceAware.convertFlvToMp4 envC10 tC10 wC10).err = none) :=
  ⟨basename_collision_skip.1 "D:\\live\\a\\clip.flv" "D:\\live\\b\\clip.flv" (by decide),
   basename_collision_skip.2 envC10 tC10 wC10 (by decide)⟩

open SpaceAware in
/-- Helper: the close handler never emits a spawn event. -/
theorem onClose_no_spawn (env : Env) (t : FileTask) (out : String) (code : Int) (w : World)
    (p : String) (r : StepResult) (hr : SpaceAware.onClose env t out code w = r) :
    Event.spawned p ∉ r.trace := by
  unfold SpaceAware.onClose at hr
  split at hr
  · split at hr
    · subst hr; simp
    · split at hr
      · subst hr; simp
      · split at hr
        · subst hr; simp
        · subst hr; simp
  · subst hr; simp

open SpaceAware in
/-- Helper: a commit event from the close handler names the task's source
path, and the handler has deleted that source from the filesystem. -/
theorem onClose_commit (env : Env) (t : FileTask) (out : String) (code : Int) (w : World)
    (p : String) (r : StepResult) (hr : SpaceAware.onClose env t out code w = r)
    (h : Event.committed p ∈ r.trace) :
    p = t.fullPath ∧ List.lookup p r.world.files = none := by
  unfold SpaceAware.onClose at hr
  split at hr
  · split at hr
    · subst hr; simp at h
    · split at hr
      · subst hr
        simp at h
        subst h
        refine ⟨rfl, ?_⟩
        simp only [isDel, if_true, ite_true, writeLog, unlinkFile]
        rw [lookup_fsRemove]
        simp
      · split at hr
        · subst hr; simp at h
        · subst hr; simp at h
  · subst hr; simp at h

open SpaceAware in
/-- Helper: the close handler never resurrects an absent path other than
the output path. -/
theorem onClose_absent (env : Env) (t : FileTask) (out : String) (code : Int) (w : World)
    (p : String) (r : StepResult) (hr : SpaceAware.onClose env t out code w = r)
    (habs : List.lookup p w.files = none) :
    List.lookup p r.world.files = none := by
  unfold SpaceAware.onClose at hr
  split at hr
  · split at hr
    · subst hr
      simpa [writeLog] using habs
    · split at hr
      · subst hr
        simp only [isDel, if_true, ite_true, writeLog, unlinkFile]
        rw [lookup_fsRemove]
        split
        · rfl
        · unfold utimesStep
          split
          · simp only [writeLog]
            exact lookup_fsSetTimes_none _ _ _ _ _ (by simpa [writeLog] using habs)
          · simpa [writeLog] using habs
      · split at hr
        · subst hr
          simp only [writeLog]
          split
          · simp only [writeLog, unlinkFile]
            rw [lookup_fsRemove]
            split
            · rfl
            · simpa [writeLog] using habs
          · simpa [writeLog] using habs
        · subst hr
          simp only [appendLedger, writeLog]
          split
          · simp only [writeLog, unlinkFile]
            rw [lookup_fsRemove]
            split
            · rfl
            · simpa [writeLog] using habs
          · simpa [writeLog] using habs
  · subst hr
    simp only [writeLog]
    split
    · simp only [writeLog, unlinkFile]
      rw [lookup_fsRemove]
      split
      · rfl
      · simpa [writeLog] using habs
    · simpa [writeLog] using habs

open SpaceAware in
/-- Helper: a spawn event from the worker names the task's source path. -/
theorem convert_spawned (env : Env) (t : FileTask) (w : World) (p : String)
    (r : StepResult) (hr : SpaceAware.convertFlvToMp4 env t w = r)
    (h : Event.spawned p ∈ r.trace) : p = t.fullPath := by
  unfold SpaceAware.convertFlvToMp4 at hr
  simp only [isDel, if_true] at hr
  split at hr
  · subst hr; simp at h
  · split at hr
    · subst hr
      simpa using h
    · subst hr
      simp at h
      rcases h with h | h
      · exact h
      · exact absurd h (onClose_no_spawn env t _ _ _ p _ rfl)

open SpaceAware in
/-- Helper: a commit event from the worker names the task's source path,
which is absent from the filesystem when the worker returns. -/
theorem convert_commit (env : Env) (t : FileTask) (w : World) (p : String)
    (r : StepResult) (hr : SpaceAware.convertFlvToMp4 env t w = r)
    (h : Event.committed p ∈ r.trace) :
    p = t.fullPath ∧ List.lookup p r.world.files = none := by
  unfold SpaceAware.convertFlvToMp4 at hr
  simp only [isDel, if_true] at hr
  split at hr
  · subst hr; simp at h
  · split at hr
    · subst hr
      simp at h
    · subst hr
      simp at h
      have hcommit := onClose_commit env t (outputPathOf t.fullPath)
        (env.exitCode t.fullPath) (ffmpegEffect env t.fullPath (outputPathOf t.fullPath)
          (writeLog w "INFO" ("开始转换: " ++ t.fullPath ++ " -> " ++ outputPathOf t.fullPath)))
        p _ rfl h
      exact hcommit

open SpaceAware in
/-- Helper: the worker never resurrects an absent path that is not its
output path. -/
theorem convert_absent (env : Env) (t : FileTask) (w : World) (p : String)
    (r : StepResult) (hr : SpaceAware.convertFlvToMp4 env t w = r)
    (hne : outputPathOf t.fullPath ≠ p)
    (habs : List.lookup p w.files = none) :
    List.lookup p r.world.files = none := by
  unfold SpaceAware.convertFlvToMp4 at hr
  simp only [isDel, if_true] at hr
  split at hr
  · subst hr
    simp only [if_true, writeLog, unlinkFile]
    rw [lookup_fsRemove]
    split
    · rfl
    · exact habs
  · split at hr
    · subst hr
      simpa [writeLog] using habs
    · subst hr
      simp only []
      refine onClose_absent env t (outputPathOf t.fullPath) (env.exitCode t.fullPath)
        (ffmpegEffect env t.fullPath (outputPathOf t.fullPath)
          (writeLog w "INFO" ("开始转换: " ++ t.fullPath ++ " -> " ++ outputPathOf t.fullPath)))
        p _ rfl ?_
      unfold ffmpegEffect
      split
      · simp only [writeLog]
        rw [lookup_fsWrite]
        rw [if_neg (fun hc => hne hc.symm)]
        simpa [writeLog] using habs
      · simpa [writeLog] using habs

open SpaceAware in
/-- Helper: sequential processing never resurrects an absent path that is
no task's output path. -/
theorem processTasks_absent (env : Env) (p : String)
    (hB : ∀ x : String, outputPathOf x ≠ p) :
    ∀ (ts : List FileTask) (w : World), List.lookup p w.files = none →
      List.lookup p (SpaceAware.processTasks env ts w).world.files = none := by
  intro ts
  induction ts with
  | nil => intro w h; simpa [SpaceAware.processTasks] using h
  | cons t rest ih =>
    intro w h
    have hstep := convert_absent env t w p _ rfl (hB t.fullPath) h
    simp only [SpaceAware.processTasks]
    cases herr : (SpaceAware.convertFlvToMp4 env t w).err with
    | some e => simpa [herr] using hstep
    | none =>
      simp only [herr]
      exact ih _ hstep

open SpaceAware in
/-- Helper: once a source path is committed during a run, it is absent from
the filesystem at the end of the run. -/
theorem processTasks_commit (env : Env) (p : String)
    (hB : ∀ x : String, outputPathOf x ≠ p) :
    ∀ (ts : List FileTask) (w : World),
      Event.committed p ∈ (SpaceAware.processTasks env ts w).trace →
      List.lookup p (SpaceAware.processTasks env ts w).world.files = none := by
  intro ts
  induction ts with
  | nil => intro w h; simp [SpaceAware.processTasks] at h
  | cons t rest ih =>
    intro w h
    simp only [SpaceAware.processTasks] at h ⊢
    cases herr : (SpaceAware.convertFlvToMp4 env t w).err with
    | some e =>
      rw [herr] at h
      simp only at h
      exact (convert_commit env t w p _ rfl h).2
    | none =>
      rw [herr] at h
      simp only [List.mem_append] at h
      rcases h with h | h
      · have habs := (convert_commit env t w p _ rfl h).2
        exact processTasks_absent env p hB rest _ habs
      · exact ih _ h

open SpaceAware in
/-- Helper: every spawned path during a run is the path of some task of the
run's list. -/
theorem processTasks_spawned (env : Env) (p : String) :
    ∀ (ts : List FileTask) (w : World),
      Event.spawned p ∈ (SpaceAware.processTasks env ts w).trace →
      p ∈ ts.map (fun t => t.fullPath) := by
  intro ts
  induction ts with
  | nil => intro w h; simp [SpaceAware.processTasks] at h
  | cons t rest ih =>
    intro w h
    simp only [SpaceAware.processTasks] at h
    cases herr : (SpaceAware.convertFlvToMp4 env t w).err with
    | some e =>
      rw [herr] at h
      simp only at h
      exact List.mem_map.mpr ⟨t, List.mem_cons_self t rest, (convert_spawned env t w p _ rfl h).symm⟩
    | none =>
      rw [herr] at h
      simp only [List.mem_append] at h
      rcases h with h | h
      · exact List.mem_map.mpr ⟨t, List.mem_cons_self t rest,
          (convert_spawned env t w p _ rfl h).symm⟩
      · have := ih _ h
        simp only [List.map_cons, List.mem_cons]
        right
        simpa using this

open SpaceAware in
/-- Helper: every committed path during a run is the path of some task of
the run's list. -/
theorem processTasks_committed_origin (env : Env) (p : String) :
    ∀ (ts : List FileTask) (w : World),
      Event.committed p ∈ (SpaceAware.processTasks env ts w).trace →
      p ∈ ts.map (fun t => t.fullPath) := by
  intro ts
  induction ts with
  | nil => intro w h; simp [SpaceAware.processTasks] at h
  | cons t rest ih =>
    intro w h
    simp only [SpaceAware.processTasks] at h
    cases herr : (SpaceAware.convertFlvToMp4 env t w).err with
    | some e =>
      rw [herr] at h
      simp only at h
      exact List.mem_map.mpr ⟨t, List.mem_cons_self t rest, (convert_commit env t w p _ rfl h).1.symm⟩
    | none =>
      rw [herr] at h
      simp only [List.mem_append] at h
      rcases h with h | h
      · exact List.mem_map.mpr ⟨t, List.mem_cons_self t rest,
          (convert_commit env t w p _ rfl h).1.symm⟩
      · have := ih _ h
        simp only [List.map_cons, List.mem_cons]
        right
        simpa using this

open SpaceAware in
/-- Helper: the greedy cutoff returns a subset of its input. -/
theorem greedyF_mem (u : Nat) (ts : List FileTask) (x : FileTask)
    (h : x ∈ (greedyF u ts).1) : x ∈ ts := by
  induction ts generalizing u with
  | nil => simpa [greedyF] using h
  | cons t rest ih =>
    simp only [greedyF] at h
    split at h
    · simp at h
    · simp only [List.mem_cons] at h
      rcases h with h | h
      · exact List.mem_cons.mpr (Or.inl h)
      · exact List.mem_cons.mpr (Or.inr (ih _ h))

/-- Helper: a present key cannot look up to nothing. -/
theorem lookup_of_mem (k : String) (v : FileData) (fs : List (String × FileData))
    (h : (k, v) ∈ fs) : List.lookup k fs ≠ none := by
  induction fs with
  | nil => simp at h
  | cons e rest ih =>
    obtain ⟨k2, v2⟩ := e
    rcases List.mem_cons.mp h with he | he
    · obtain ⟨hk, hv⟩ := Prod.mk.injEq .. ▸ he
      subst hk
      simp [List.lookup_cons]
    · by_cases hk : k = k2
      · subst hk
        simp [List.lookup_cons]
      · rw [List.lookup_cons, show (k == k2) = false from by simp [hk]]
        exact ih he

open SpaceAware in
/-- Helper: every task in a flat collection has a convertible extension and
an existing source file. -/
theorem collect_flat_mem (fs : List (String × FileData)) (x : FileTask)
    (h : x ∈ SpaceAware.collectFilesFlat fs) :
    extMatches x.fullPath = true ∧ List.lookup x.fullPath fs ≠ none := by
  unfold SpaceAware.collectFilesFlat at h
  have h1 : x ∈ (greedyF 0 (matchingTasks fs)).1 := (sortByMtime_perm _).mem_iff.mp h
  have h2 : x ∈ matchingTasks fs := greedyF_mem _ _ _ h1
  unfold matchingTasks at h2
  obtain ⟨e, he, hx⟩ := List.mem_map.mp h2
  have hf := List.mem_filter.mp he
  subst hx
  refine ⟨by simpa [taskOf] using hf.2, ?_⟩
  have : (taskOf e).fullPath = e.1 := rfl
  rw [this]
  exact lookup_of_mem e.1 e.2 fs hf.1

/-- C9: running the space-aware batch runner a second time over the world
left by a first run never re-invokes the transcoder for a file the first
run successfully converted: a committed source was deleted (delete-source
flag is set), so the second collection cannot contain it, and only
collected tasks are ever spawned. -/
theorem second_run_skips_converted (env : Env) (w0 : World) (p : String)
    (h : Event.committed p ∈ (SpaceAware.runBatch env w0).trace) :
    Event.spawned p ∉
      (SpaceAware.runBatch env (SpaceAware.runBatch env w0).world).trace := by
  unfold SpaceAware.runBatch at h ⊢
  have hp1 := processTasks_committed_origin env p _ w0 h
  obtain ⟨t, ht, htp⟩ := List.mem_map.mp hp1
  have hm : extMatches p = true := by
    rw [← htp]
    exact (collect_flat_mem w0.files t ht).1
  have hB : ∀ x : String, outputPathOf x ≠ p := fun x => extMatches_ne_outputPath p x hm
  have habs := processTasks_commit env p hB _ w0 h
  intro hsp
  have hp2 := processTasks_spawned env p _ _ hsp
  obtain ⟨t2, ht2, htp2⟩ := List.mem_map.mp hp2
  have h2 := (collect_flat_mem _ t2 ht2).2
  rw [htp2] at h2
  exact h2 habs

/-- Witness for C9: in a two-file batch where both files convert and
validate successfully, the first file is committed in run one and not
spawned in run two. -/
theorem second_run_skips_converted_witness :
    Event.committed pA ∈ (SpaceAware.runBatch envGood wTwoSources).trace ∧
    Event.spawned pA ∉
      (SpaceAware.runBatch envGood (SpaceAware.runBatch envGood wTwoSources).world).trace :=
  ⟨by decide, second_run_skips_converted envGood wTwoSources pA (by decide)⟩
